import Mathlib

/-!
Verification of the mcbd-world-sync synchronization engine.

This file gives a shallow embedding of the core of the repository
(src/file_manager.rs, src/network.rs, src/main.rs) and proves or refutes
the specified properties of the conflict resolver, the directory scanner,
the inbound content writer, the wire protocol, the framing layer, the
connection handler, the propagation loop, the content hash and the
fingerprint cache.

Modelling conventions: `PathBuf` values are lists of path segments
(`List String`); `SystemTime` is a `Nat` (the ordering is all the code
uses); bytes are `Nat` values below 256; fallible Rust functions return
`Except Unit`; a `HashMap` is modelled extensionally as a function to
`Option`.
-/

/-- Mirror of `FileInfo` in src/file_manager.rs: relative path, last
modification time, size in bytes, and content hash string. -/
structure FileInfo where
  path : List String
  last_modified : Nat
  size : Nat
  hash : String
deriving DecidableEq, Repr

/-- Mirror of `FileManager` in src/file_manager.rs: a base path and a
cache from relative path to `FileInfo`, modelled extensionally. -/
structure FileManager where
  base_path : List String
  file_cache : List String → Option FileInfo

/-- Mirror of `FileManager::handle_conflict` (src/file_manager.rs lines
90-97): if the local fingerprint is strictly newer return it, otherwise
return the remote one.  The Rust function always returns `Ok`. -/
def handle_conflict (local_ remote : FileInfo) : Except Unit FileInfo :=
  if local_.last_modified > remote.last_modified then
    Except.ok local_
  else
    Except.ok remote

/-- Mirror of `FileManager::get_file_info` (src/file_manager.rs lines
82-84): look the path up in the cache. -/
def FileManager.get_file_info (fm : FileManager) (path : List String) :
    Option FileInfo :=
  fm.file_cache path

/-- Mirror of `FileManager::update_file_info` (src/file_manager.rs lines
86-88): `HashMap::insert`, i.e. a pointwise update of the cache; no other
field of the manager is touched. -/
def FileManager.update_file_info (fm : FileManager) (path : List String)
    (info : FileInfo) : FileManager :=
  { fm with
    file_cache := fun q => if q = path then some info else fm.file_cache q }

/-- Rotate a 32-bit word right by `n` bits. -/
def rotr32 (n x : Nat) : Nat :=
  ((x >>> n) ||| (x <<< (32 - n))) % (2 ^ 32)

/-- SHA-256 big sigma-0 word function. -/
def bsig0 (x : Nat) : Nat := rotr32 2 x ^^^ rotr32 13 x ^^^ rotr32 22 x

/-- SHA-256 big sigma-1 word function. -/
def bsig1 (x : Nat) : Nat := rotr32 6 x ^^^ rotr32 11 x ^^^ rotr32 25 x

/-- SHA-256 small sigma-0 word function. -/
def ssig0 (x : Nat) : Nat := rotr32 7 x ^^^ rotr32 18 x ^^^ (x >>> 3)

/-- SHA-256 small sigma-1 word function. -/
def ssig1 (x : Nat) : Nat := rotr32 17 x ^^^ rotr32 19 x ^^^ (x >>> 10)

/-- SHA-256 choice word function (complement taken against the 32-bit
mask). -/
def chFn (x y z : Nat) : Nat := (x &&& y) ^^^ ((x ^^^ 0xffffffff) &&& z)

/-- SHA-256 majority word function. -/
def majFn (x y z : Nat) : Nat := (x &&& y) ^^^ (x &&& z) ^^^ (y &&& z)

/-- SHA-256 round constants. -/
def sha256K : List Nat :=
  [1116352408, 1899447441, 3049323471, 3921009573, 961987163,
   1508970993, 2453635748, 2870763221, 3624381080, 310598401,
   607225278, 1426881987, 1925078388, 2162078206, 2614888103,
   3248222580, 3835390401, 4022224774, 264347078, 604807628,
   770255983, 1249150122, 1555081692, 1996064986, 2554220882,
   2821834349, 2952996808, 3210313671, 3336571891, 3584528711,
   113926993, 338241895, 666307205, 773529912, 1294757372,
   1396182291, 1695183700, 1986661051, 2177026350, 2456956037,
   2730485921, 2820302411, 3259730800, 3345764771, 3516065817,
   3600352804, 4094571909, 275423344, 430227734, 506948616,
   659060556, 883997877, 958139571, 1322822218, 1537002063,
   1747873779, 1955562222, 2024104815, 2227730452, 2361852424,
   2428436474, 2756734187, 3204031479, 3329325298]

/-- SHA-256 initial hash state. -/
def sha256H0 : List Nat :=
  [1779033703, 3144134277, 1013904242, 2773480762,
   1359893119, 2600822924, 528734635, 1541459225]

/-- Big-endian 8-byte encoding of a 64-bit value. -/
def toBe8 (n : Nat) : List Nat :=
  [n / 2 ^ 56 % 256, n / 2 ^ 48 % 256, n / 2 ^ 40 % 256, n / 2 ^ 32 % 256,
   n / 2 ^ 24 % 256, n / 2 ^ 16 % 256, n / 2 ^ 8 % 256, n % 256]

/-- SHA-256 message padding: append `0x80`, zero bytes up to 8 bytes
short of a 64-byte boundary, then the bit length big-endian. -/
def padMessage (msg : List Nat) : List Nat :=
  let len := msg.length
  let zeros := (64 - (len + 9) % 64) % 64
  msg ++ [0x80] ++ List.replicate zeros 0 ++ toBe8 (len * 8)

/-- Split a byte list into 64-byte chunks; the fuel argument (the list
length suffices) keeps the recursion structural. -/
def chunks64Aux (fuel : Nat) (l : List Nat) : List (List Nat) :=
  match fuel, l with
  | 0, _ => []
  | _, [] => []
  | f + 1, x :: rest => (x :: rest).take 64 :: chunks64Aux f (rest.drop 63)

/-- Split a byte list into 64-byte chunks. -/
def chunks64 (l : List Nat) : List (List Nat) :=
  chunks64Aux l.length l

/-- Group a 64-byte block into sixteen big-endian 32-bit words. -/
def toWords32 : List Nat → List Nat
  | a :: b :: c :: d :: rest =>
    (((a * 256 + b) * 256 + c) * 256 + d) :: toWords32 rest
  | _ => []

/-- Extend the 16-word message schedule by the given number of words. -/
def extendW (ws : List Nat) : Nat → List Nat
  | 0 => ws
  | k + 1 =>
    let n := ws.length
    let nw := (ws.getD (n - 16) 0 + ssig0 (ws.getD (n - 15) 0) +
               ws.getD (n - 7) 0 + ssig1 (ws.getD (n - 2) 0)) % (2 ^ 32)
    extendW (ws ++ [nw]) k

/-- One SHA-256 compression round on the eight-word working state. -/
def sha256Round (st : List Nat) (k w : Nat) : List Nat :=
  match st with
  | [a, b, c, d, e, f, g, h] =>
    let t1 := (h + bsig1 e + chFn e f g + k + w) % (2 ^ 32)
    let t2 := (bsig0 a + majFn a b c) % (2 ^ 32)
    [(t1 + t2) % (2 ^ 32), a, b, c, (d + t1) % (2 ^ 32), e, f, g]
  | _ => st

/-- Compress one 64-byte block into the running hash state. -/
def compressBlock (hs : List Nat) (block : List Nat) : List Nat :=
  let ws := extendW (toWords32 block) 48
  let fin := (List.zip sha256K ws).foldl (fun st kw => sha256Round st kw.1 kw.2) hs
  (List.zip hs fin).map fun p => (p.1 + p.2) % (2 ^ 32)

/-- SHA-256 digest (32 bytes) of a byte list, per FIPS 180-4. -/
def sha256 (msg : List Nat) : List Nat :=
  let hs := (chunks64 (padMessage msg)).foldl compressBlock sha256H0
  hs.flatMap fun w => [w / 2 ^ 24 % 256, w / 2 ^ 16 % 256, w / 2 ^ 8 % 256, w % 256]

/-- Lowercase hexadecimal digit for a value below 16. -/
def hexChar (n : Nat) : Char :=
  if n < 10 then Char.ofNat (48 + n) else Char.ofNat (87 + n)

/-- Modelled from the spec: the 256-bit cryptographic content digest.
The digest computation itself lives in the external `sha2` crate, not in
src/; the spec fixes it as SHA-256 of the full content, rendered here as
the lowercase hex string that `format` with the `x` specifier produces in
`FileManager::calculate_file_hash` (src/file_manager.rs lines 59-66). -/
def sha256Hex (msg : List Nat) : String :=
  String.mk ((sha256 msg).flatMap fun b => [hexChar (b / 16), hexChar (b % 16)])

/-- Mirror of `FileManager::calculate_file_hash` (src/file_manager.rs
lines 59-66): open the file (the filesystem is modelled as a map from
path to content bytes, `none` meaning unreadable), stream its content
through SHA-256 and format the digest in lowercase hex. -/
def calculate_file_hash (fs : List String → Option (List Nat))
    (path : List String) : Except Unit String :=
  match fs path with
  | none => Except.error ()
  | some content => Except.ok (sha256Hex content)

/-- Directory tree observed by a scan.  A file carries the result of
`fs::metadata` (`none` models failure; otherwise the result of
`metadata.modified()`, itself fallible, and `metadata.len()`) and the
result of reading its content for hashing (`none` models an unreadable
file).  A directory carries the result of `fs::read_dir` (`none` models
failure).  `errEntry` models a directory entry whose retrieval itself
fails. -/
inductive DirEntry where
  | file (name : String) (meta : Option (Option Nat × Nat))
      (content : Option (List Nat))
  | dir (name : String) (entries : Option (List DirEntry))
  | errEntry
deriving Repr

/-- Mirror of the loop body of `FileManager::scan_directory_recursive`
(src/file_manager.rs lines 35-57): a failing entry propagates an error
(the `?` on `entry`); a file whose metadata read fails is skipped via
`if let Ok(metadata)`; a file whose modified-time or content read fails
propagates an error (the `?` on `metadata.modified()` and on
`calculate_file_hash`); a subdirectory is recursed into, its `read_dir`
failure propagating. -/
def scanEntries (rel : List String) : List DirEntry → Except Unit (List FileInfo)
  | [] => Except.ok []
  | DirEntry.errEntry :: _ => Except.error ()
  | DirEntry.file name meta content :: rest =>
    match meta with
    | none => scanEntries rel rest
    | some (mopt, sz) =>
      match mopt, content with
      | some t, some c =>
        (scanEntries rel rest).map
          (fun fs => ⟨rel ++ [name], t, sz, sha256Hex c⟩ :: fs)
      | _, _ => Except.error ()
  | DirEntry.dir name entries :: rest =>
    match entries with
    | none => Except.error ()
    | some es => do
      let sub ← scanEntries (rel ++ [name]) es
      let tail ← scanEntries rel rest
      pure (sub ++ tail)

/-- Mirror of `FileManager::scan_directory` (src/file_manager.rs lines
28-33): read the root directory (failure is returned to the caller) and
scan its entries recursively. -/
def scan_directory (root : DirEntry) : Except Unit (List FileInfo) :=
  match root with
  | DirEntry.dir _ (some es) => scanEntries [] es
  | _ => Except.error ()

/-- Tree predicate: every entry is retrievable, every directory is
readable, and every file either fails its metadata read (and is skipped
by the scanner) or is fully readable. -/
def cleanEntries : List DirEntry → Bool
  | [] => true
  | DirEntry.errEntry :: _ => false
  | DirEntry.file _ meta content :: rest =>
    (match meta with
     | none => true
     | some (mopt, _) => mopt.isSome && content.isSome) && cleanEntries rest
  | DirEntry.dir _ none :: _ => false
  | DirEntry.dir _ (some es) :: rest => cleanEntries es && cleanEntries rest

/-- Fingerprints of the fully readable files of a tree in scan (depth-
first) order, skipping files whose metadata read fails. -/
def goodEntries (rel : List String) : List DirEntry → List FileInfo
  | [] => []
  | DirEntry.errEntry :: _ => []
  | DirEntry.file name meta content :: rest =>
    match meta with
    | none => goodEntries rel rest
    | some (mopt, sz) =>
      match mopt, content with
      | some t, some c => ⟨rel ++ [name], t, sz, sha256Hex c⟩ :: goodEntries rel rest
      | _, _ => []
  | DirEntry.dir _ none :: _ => []
  | DirEntry.dir name (some es) :: rest =>
    goodEntries (rel ++ [name]) es ++ goodEntries rel rest

/-- Tree whose root is readable and holds one fully readable file and
one file whose metadata read succeeds but whose content read fails. -/
def badScanTree : DirEntry :=
  DirEntry.dir "root"
    (some [DirEntry.file "a" (some (some 1, 1)) (some [97]),
           DirEntry.file "b" (some (some 2, 2)) none])

/-- Entry list of a tree with a metadata-unreadable file (skipped by the
scan), a subdirectory with one readable file, and a readable file. -/
def cleanScanEntries : List DirEntry :=
  [DirEntry.file "skip" none none,
   DirEntry.dir "sub" (some [DirEntry.file "c" (some (some 4, 2)) (some [104, 105])]),
   DirEntry.file "a" (some (some 7, 1)) (some [120])]

/-- Resolution of a path segment list as the operating system resolves
it on write: a parent-directory segment removes the preceding segment. -/
def normAux (acc : List String) : List String → List String
  | [] => acc
  | s :: rest =>
    if s = ".." then normAux acc.dropLast rest else normAux (acc ++ [s]) rest

/-- Resolve all parent-directory segments of a path. -/
def normalizePath (p : List String) : List String := normAux [] p

/-- Whether `target` lies inside the directory `base`. -/
def withinRoot (base target : List String) : Bool :=
  target.take base.length == base

/-- Mirror of `FileManager::save_file_content` (src/file_manager.rs
lines 73-80): join the relative path onto the base path (`PathBuf::join`
appends a relative path as-is, with no check of its segments), create
parent directories, and write the bytes; the operating system resolves
parent-directory segments at that point, modelled by `normalizePath`.  The
returned pair is the resolved location written and the bytes written. -/
def save_file_content (base_path : List String) (path : List String)
    (content : List Nat) : Except Unit (List String × List Nat) :=
  Except.ok (normalizePath (base_path ++ path), content)

/-- JSON values, standing for the serialized bytes a message body is
encoded to (the byte rendering and parsing of JSON is the external
serde_json crate's). -/
inductive Json where
  | str (s : String)
  | num (n : Nat)
  | arr (xs : List Json)
  | obj (fields : List (String × Json))

/-- Mirror of the `SyncMessage` enum (src/network.rs lines 9-21): the
four wire message variants; on the wire a `PathBuf` is its string form
and the content is a byte vector. -/
inductive SyncMessage where
  | fileChange (path : String) (change_type : String)
  | fileContent (path : String) (content : List Nat)
  | syncRequest
  | syncResponse
deriving DecidableEq, Repr

/-- Modelled from the spec: serde_json's encoding of `SyncMessage`,
generated by the Serialize derive (library code, not in src/).  The
enum is externally tagged: a struct variant becomes a one-field object
keyed by the variant name, a unit variant becomes its bare name string,
a path becomes a string and a byte vector an array of numbers. -/
def toJson : SyncMessage → Json
  | SyncMessage.fileChange p c =>
    Json.obj [("FileChange",
      Json.obj [("path", Json.str p), ("change_type", Json.str c)])]
  | SyncMessage.fileContent p content =>
    Json.obj [("FileContent",
      Json.obj [("path", Json.str p),
                ("content", Json.arr (content.map Json.num))])]
  | SyncMessage.syncRequest => Json.str "SyncRequest"
  | SyncMessage.syncResponse => Json.str "SyncResponse"

/-- Decode a JSON array's elements as bytes; any non-number element is a
decode failure. -/
def decodeBytes : List Json → Option (List Nat)
  | [] => some []
  | Json.num n :: rest => (decodeBytes rest).map (n :: ·)
  | _ => none

/-- Modelled from the spec: serde_json's decoding of `SyncMessage`,
generated by the Deserialize derive (library code, not in src/); the
inverse reading of the externally tagged encoding, `none` on any value
of a different shape. -/
def fromJson : Json → Option SyncMessage
  | Json.str s =>
    if s = "SyncRequest" then some SyncMessage.syncRequest
    else if s = "SyncResponse" then some SyncMessage.syncResponse
    else none
  | Json.obj [("FileChange",
      Json.obj [("path", Json.str p), ("change_type", Json.str c)])] =>
    some (SyncMessage.fileChange p c)
  | Json.obj [("FileContent",
      Json.obj [("path", Json.str p), ("content", Json.arr xs)])] =>
    (decodeBytes xs).map (SyncMessage.fileContent p)
  | _ => none

/-- Big-endian 4-byte encoding of a 32-bit length. -/
def toBe4 (n : Nat) : List Nat :=
  [n / 2 ^ 24 % 256, n / 2 ^ 16 % 256, n / 2 ^ 8 % 256, n % 256]

/-- The 32-bit value of four big-endian bytes. -/
def fromBe4 (a b c d : Nat) : Nat := ((a * 256 + b) * 256 + c) * 256 + d

/-- Modelled from the spec: one frame of the length-delimited codec used
by both transport ends (src/network.rs lines 49, 99, 111; the codec
itself is the external tokio_util crate): a 4-byte big-endian length
prefix followed by exactly that many body bytes. -/
def mkFrame (body : List Nat) : List Nat := toBe4 body.length ++ body

/-- Modelled from the spec: the frame reader's extraction of complete
frames from a receive buffer.  While at least 4 length bytes and a full
body are buffered, one frame body is split off; the incomplete remainder
is kept as the new buffer. -/
def extractFrames : List Nat → List (List Nat) × List Nat
  | a :: b :: c :: d :: rest =>
    if (rest : List Nat).length < fromBe4 a b c d then
      ([], a :: b :: c :: d :: rest)
    else
      let res := extractFrames (rest.drop (fromBe4 a b c d))
      (rest.take (fromBe4 a b c d) :: res.1, res.2)
  | [] => ([], [])
  | [a] => ([], [a])
  | [a, b] => ([], [a, b])
  | [a, b, c] => ([], [a, b, c])
termination_by l => l.length
decreasing_by
  simp [List.length_drop]
  omega

/-- Feed the byte stream to the frame reader one delivery chunk at a
time, collecting the extracted frame bodies in order. -/
def feedAll (st : List Nat) : List (List Nat) → List (List Nat) × List Nat
  | [] => ([], st)
  | c :: cs =>
    let fed := extractFrames (st ++ c)
    let rest := feedAll fed.2 cs
    (fed.1 ++ rest.1, rest.2)

/-- Log events the connection and propagation code can emit, mirroring
the `log` macros the source calls (`info`, `warn`, `error`). -/
inductive LogEntry where
  | infoReceived (m : SyncMessage)
  | warnLog (s : String)
  | errorReceiving
  | errorSendFailed (name : String)
deriving DecidableEq, Repr

/-- Mirror of the message loop of `SyncServer::handle_connection`
(src/network.rs lines 48-83) over the sequence of framing-layer results:
a frame whose body decodes logs one info line for the dispatched
message; a frame whose body does not decode is dropped by the silent
`if let Ok` with no log at all and the loop continues; a framing-layer
error logs an error and breaks out of the loop, the remaining items
never being read.  The Rust function then returns `Ok` either way. -/
def handleConnection : List (Except Unit Json) → List LogEntry
  | [] => []
  | Except.ok bytes :: rest =>
    (match fromJson bytes with
     | some m => [LogEntry.infoReceived m]
     | none => []) ++ handleConnection rest
  | Except.error _ :: _ => [LogEntry.errorReceiving]

/-- Mirror of the accept loop of `SyncServer::start` (src/network.rs
lines 36-45): every accepted connection is handled in its own spawned
context, independently of the others. -/
def serverRun (conns : List (List (Except Unit Json))) : List (List LogEntry) :=
  conns.map handleConnection

/-- Mirror of the `Device` entry of the configuration
(src/config.rs lines 26-30): a display name and a peer address. -/
structure Device where
  name : String
  address : String
deriving DecidableEq, Repr

/-- Mirror of `SyncClient::send_file_change` (src/network.rs lines
109-118): connect to the address and send one framed `FileChange`
message; the network is modelled by a reachability predicate on
addresses, an unreachable address failing the connect. -/
def send_file_change (reachable : String → Bool) (address : String)
    (path change_type : String) : Except Unit (String × SyncMessage) :=
  if reachable address then
    Except.ok (address, SyncMessage.fileChange path change_type)
  else
    Except.error ()

/-- Mirror of the propagation loop of `main` (src/main.rs lines
234-243): for each configured device in order, attempt one
`send_file_change`; a failed send is logged with the device name and the
loop continues with the next device.  Returns the delivered messages
(address paired with message) and the log entries. -/
def propagateChange (reachable : String → Bool) (devices : List Device)
    (path change_type : String) :
    List (String × SyncMessage) × List LogEntry :=
  match devices with
  | [] => ([], [])
  | d :: ds =>
    let rest := propagateChange reachable ds path change_type
    match send_file_change reachable d.address path change_type with
    | Except.ok m => (m :: rest.1, rest.2)
    | Except.error _ => (rest.1, LogEntry.errorSendFailed d.name :: rest.2)

/-- Concrete fingerprint used in the conflict-resolution counterexample:
same timestamp as `fpB` but the lexicographically greater hash. -/
def fpA : FileInfo := ⟨["w", "dat"], 5, 1, "bb"⟩

/-- Concrete fingerprint used in the conflict-resolution counterexample:
same timestamp as `fpA` but the lexicographically smaller hash. -/
def fpB : FileInfo := ⟨["w", "dat"], 5, 1, "aa"⟩

/-- C1 counterexample: `fpA` and `fpB` carry the same timestamp and the
hash of `fpB` is lexicographically smaller, yet `handle_conflict fpA fpB`
returns `fpB` (not the fingerprint with the greater hash) and swapping
the arguments changes the answer, so the resolver is not commutative. -/
theorem handle_conflict_tie_not_lex_hash :
    fpA.last_modified = fpB.last_modified ∧
    fpB.hash.data < fpA.hash.data ∧
    handle_conflict fpA fpB = Except.ok fpB ∧
    handle_conflict fpA fpB ≠ handle_conflict fpB fpA := by
  refine ⟨rfl, ?_, rfl, ?_⟩
  · decide
  · intro h
    simp [handle_conflict, fpA, fpB] at h

/-- C1 amended: on a timestamp tie `handle_conflict` ignores the hashes
entirely and returns the remote (second) fingerprint. -/
theorem handle_conflict_tie_returns_remote (local_ remote : FileInfo)
    (h : local_.last_modified = remote.last_modified) :
    handle_conflict local_ remote = Except.ok remote := by
  simp [handle_conflict, h]

/-- Witness for `handle_conflict_tie_returns_remote` at the concrete tied
pair `fpA`, `fpB`. -/
theorem handle_conflict_tie_returns_remote_witness :
    handle_conflict fpA fpB = Except.ok fpB :=
  handle_conflict_tie_returns_remote fpA fpB rfl

/-- C4: the strictly newer fingerprint wins: when the local timestamp is
strictly greater `handle_conflict` returns the local fingerprint, and
when the remote timestamp is strictly greater it returns the remote
fingerprint. -/
theorem handle_conflict_last_writer_wins (local_ remote : FileInfo) :
    (local_.last_modified > remote.last_modified →
      handle_conflict local_ remote = Except.ok local_) ∧
    (remote.last_modified > local_.last_modified →
      handle_conflict local_ remote = Except.ok remote) := by
  constructor
  · intro h
    simp [handle_conflict, h]
  · intro h
    simp [handle_conflict, Nat.not_lt.mpr (Nat.le_of_lt h), h]

/-- Witness for `handle_conflict_last_writer_wins`: a concrete pair with
the local fingerprint newer, exercised in both argument orders. -/
theorem handle_conflict_last_writer_wins_witness :
    handle_conflict ⟨["a"], 9, 1, "h1"⟩ ⟨["a"], 4, 1, "h2"⟩ =
      Except.ok ⟨["a"], 9, 1, "h1"⟩ ∧
    handle_conflict ⟨["a"], 4, 1, "h2"⟩ ⟨["a"], 9, 1, "h1"⟩ =
      Except.ok ⟨["a"], 9, 1, "h1"⟩ :=
  ⟨(handle_conflict_last_writer_wins ⟨["a"], 9, 1, "h1"⟩ ⟨["a"], 4, 1, "h2"⟩).1
      (by decide),
   (handle_conflict_last_writer_wins ⟨["a"], 4, 1, "h2"⟩ ⟨["a"], 9, 1, "h1"⟩).2
      (by decide)⟩

/-- C10: after `update_file_info p f` the lookup at `p` yields `f`, the
lookup at any other path `q` is unchanged, and `base_path` is unchanged
(the update has no other effect on the manager). -/
theorem update_file_info_frame (fm : FileManager) (p q : List String)
    (f : FileInfo) (hq : q ≠ p) :
    (fm.update_file_info p f).get_file_info p = some f ∧
    (fm.update_file_info p f).get_file_info q = fm.get_file_info q ∧
    (fm.update_file_info p f).base_path = fm.base_path := by
  refine ⟨?_, ?_, rfl⟩
  · simp [FileManager.update_file_info, FileManager.get_file_info]
  · simp [FileManager.update_file_info, FileManager.get_file_info, hq]

/-- Witness for `update_file_info_frame` on a concrete manager whose
cache holds an old entry at the untouched path. -/
theorem update_file_info_frame_witness :
    ((FileManager.mk ["r"] fun q =>
        if q = ["b"] then some ⟨["b"], 1, 1, "old"⟩ else none).update_file_info
        ["a"] ⟨["a"], 2, 3, "new"⟩).get_file_info ["a"] =
      some ⟨["a"], 2, 3, "new"⟩ ∧
    ((FileManager.mk ["r"] fun q =>
        if q = ["b"] then some ⟨["b"], 1, 1, "old"⟩ else none).update_file_info
        ["a"] ⟨["a"], 2, 3, "new"⟩).get_file_info ["b"] =
      (FileManager.mk ["r"] fun q =>
        if q = ["b"] then some ⟨["b"], 1, 1, "old"⟩ else none).get_file_info
        ["b"] ∧
    ((FileManager.mk ["r"] fun q =>
        if q = ["b"] then some ⟨["b"], 1, 1, "old"⟩ else none).update_file_info
        ["a"] ⟨["a"], 2, 3, "new"⟩).base_path =
      (FileManager.mk ["r"] fun q =>
        if q = ["b"] then some ⟨["b"], 1, 1, "old"⟩ else none).base_path :=
  update_file_info_frame
    (FileManager.mk ["r"] fun q =>
      if q = ["b"] then some ⟨["b"], 1, 1, "old"⟩ else none)
    ["a"] ["b"] ⟨["a"], 2, 3, "new"⟩ (by decide)

/-- Helper: on a tree whose only unreadable files are metadata-unreadable,
the scan succeeds and returns exactly the fully readable files in
depth-first order. -/
theorem scanEntries_clean (rel : List String) (es : List DirEntry)
    (h : cleanEntries es = true) :
    scanEntries rel es = Except.ok (goodEntries rel es) := by
  induction rel, es using scanEntries.induct with
  | case1 rel => simp [scanEntries, goodEntries]
  | case2 rel tail => simp [cleanEntries] at h
  | case3 rel name content rest ih =>
    simp only [cleanEntries, Bool.true_and] at h
    simp [scanEntries, goodEntries, ih h]
  | case4 rel name rest sz t c ih =>
    simp only [cleanEntries, Option.isSome_some, Bool.and_self,
      Bool.true_and] at h
    simp [scanEntries, goodEntries, ih h, Except.map]
  | case5 rel name content rest mopt sz hcontra =>
    simp only [cleanEntries, Bool.and_eq_true, Option.isSome_iff_exists] at h
    obtain ⟨⟨⟨t, ht⟩, ⟨c, hc⟩⟩, -⟩ := h
    exact absurd (hcontra t c ht hc) not_false
  | case6 rel name rest => simp [cleanEntries] at h
  | case7 rel name rest es ih1 ih2 =>
    simp only [cleanEntries, Bool.and_eq_true] at h
    simp [scanEntries, goodEntries, ih1 h.1, ih2 h.2, Bind.bind, Except.bind,
      Pure.pure, Except.pure]

/-- C2 counterexample: `badScanTree` has a readable root, one fully
readable file and one file whose metadata read succeeds but whose
content read fails; the claim says the bad file is skipped and the scan
result over the remaining files is returned with a failure count, but
`scan_directory` aborts the whole scan with an error, losing the good
file as well — and its result type carries no failure count at all. -/
theorem scan_directory_aborts_on_content_failure :
    scan_directory badScanTree = Except.error () := by
  simp [scan_directory, badScanTree, scanEntries, Except.map]

/-- C2 amended: for every directory tree with a readable root in which
every entry is retrievable, every directory is readable, and every file
is either fully readable or fails its metadata read, `scan_directory`
succeeds, silently skipping exactly the metadata-unreadable files (no
failure count is reported) and returning the fingerprints of the fully
readable files in depth-first order; a content-read failure, by
contrast, aborts the whole scan (see the counterexample). -/
theorem scan_directory_skips_metadata_failures (name : String)
    (es : List DirEntry) (h : cleanEntries es = true) :
    scan_directory (DirEntry.dir name (some es)) =
      Except.ok (goodEntries [] es) := by
  simpa [scan_directory] using scanEntries_clean [] es h

/-- Witness for `scan_directory_skips_metadata_failures` on a concrete
tree with a skipped metadata-unreadable file, a subdirectory, and a
readable file. -/
theorem scan_directory_skips_metadata_failures_witness :
    cleanEntries cleanScanEntries = true ∧
    scan_directory (DirEntry.dir "root" (some cleanScanEntries)) =
      Except.ok [⟨["sub", "c"], 4, 2, sha256Hex [104, 105]⟩,
                 ⟨["a"], 7, 1, sha256Hex [120]⟩] := by
  have hc : cleanEntries cleanScanEntries = true := by
    simp [cleanEntries, cleanScanEntries]
  refine ⟨hc, ?_⟩
  rw [scan_directory_skips_metadata_failures "root" cleanScanEntries hc]
  simp [goodEntries, cleanScanEntries]

/-- Helper: path resolution processes a concatenation sequentially. -/
theorem normAux_append (acc xs ys : List String) :
    normAux acc (xs ++ ys) = normAux (normAux acc xs) ys := by
  induction xs generalizing acc with
  | nil => rfl
  | cons x xs ih => by_cases h : x = ".." <;> simp [normAux, h, ih]

/-- Helper: a path without parent-directory segments resolves to itself
appended to the accumulator. -/
theorem normAux_no_parent (acc p : List String) (h : ".." ∉ p) :
    normAux acc p = acc ++ p := by
  induction p generalizing acc with
  | nil => simp [normAux]
  | cons x xs ih =>
    simp only [List.mem_cons, not_or] at h
    have hx : ¬x = ".." := fun hh => h.1 hh.symm
    simp [normAux, hx, ih _ h.2]

/-- C3 counterexample: the claim says a relative path containing a
parent-directory segment is rejected with a PathSafetyViolation-style
error, but `save_file_content` succeeds on such a path and the bytes
land at a location outside the sync root. -/
theorem save_file_content_writes_outside_root :
    save_file_content ["sync", "root"] ["..", "..", "secrets"] [1, 2] =
      Except.ok (["secrets"], [1, 2]) ∧
    withinRoot ["sync", "root"] ["secrets"] = false := by
  constructor
  · rfl
  · rfl

/-- C3 amended: neither the scanner nor `save_file_content` performs any
check for parent-directory segments; `save_file_content` joins the
relative path onto the base path unchecked and the write succeeds, so
for every nonempty root (itself free of parent segments) the relative
path consisting of one parent-directory segment is silently coerced to
the root's parent directory, a location outside the sync root. -/
theorem save_file_content_parent_segment_escapes (base : List String)
    (content : List Nat) (hb : base ≠ []) (hdots : ".." ∉ base) :
    save_file_content base [".."] content =
      Except.ok (base.dropLast, content) ∧
    withinRoot base base.dropLast = false := by
  constructor
  · have h1 : normalizePath (base ++ [".."]) = base.dropLast := by
      rw [normalizePath, normAux_append, normAux_no_parent [] base hdots]
      simp [normAux]
    simp [save_file_content, h1]
  · rw [withinRoot]
    apply beq_eq_false_iff_ne.mpr
    intro heq
    have hlen := congrArg List.length heq
    have hpos : 0 < base.length := List.length_pos.mpr hb
    simp [List.length_take, List.length_dropLast] at hlen
    omega

/-- Witness for `save_file_content_parent_segment_escapes` at a concrete
two-segment root. -/
theorem save_file_content_parent_segment_escapes_witness :
    save_file_content ["sync", "root"] [".."] [7] =
      Except.ok (["sync"], [7]) ∧
    withinRoot ["sync", "root"] ["sync"] = false := by
  have h := save_file_content_parent_segment_escapes ["sync", "root"] [7]
    (by decide) (by decide)
  simpa using h

/-- C9: the content hash is a function of the content bytes only — two
files with identical content hash identically regardless of their paths
or the filesystems they live in — and the hash of the one-byte content
of the letter x is the SHA-256 digest of that byte. -/
theorem calculate_file_hash_content_only
    (fs1 fs2 : List String → Option (List Nat)) (p1 p2 : List String)
    (c : List Nat) (h1 : fs1 p1 = some c) (h2 : fs2 p2 = some c) :
    calculate_file_hash fs1 p1 = calculate_file_hash fs2 p2 ∧
    calculate_file_hash
        (fun q => if q = ["a", "b.txt"] then some [120] else none)
        ["a", "b.txt"] =
      Except.ok "2d711642b726b04401627ca9fbac32f5c8530fb1903cc4db02258717921a4881" := by
  constructor
  · simp [calculate_file_hash, h1, h2]
  · have hx : sha256Hex [120] =
        "2d711642b726b04401627ca9fbac32f5c8530fb1903cc4db02258717921a4881" := by
      decide
    simp [calculate_file_hash, hx]

/-- Witness for `calculate_file_hash_content_only`: the same one-byte
content at two different paths of two different filesystems. -/
theorem calculate_file_hash_content_only_witness :
    calculate_file_hash (fun q => if q = ["p"] then some [120] else none)
        ["p"] =
      calculate_file_hash
        (fun q => if q = ["q", "r"] then some [120] else none) ["q", "r"] ∧
    calculate_file_hash
        (fun q => if q = ["a", "b.txt"] then some [120] else none)
        ["a", "b.txt"] =
      Except.ok "2d711642b726b04401627ca9fbac32f5c8530fb1903cc4db02258717921a4881" :=
  calculate_file_hash_content_only
    (fun q => if q = ["p"] then some [120] else none)
    (fun q => if q = ["q", "r"] then some [120] else none)
    ["p"] ["q", "r"] [120] (by simp) (by simp)

/-- Helper: a list of bytes encoded as JSON numbers decodes back to the
same bytes. -/
theorem decodeBytes_map (l : List Nat) :
    decodeBytes (l.map Json.num) = some l := by
  induction l with
  | nil => rfl
  | cons n rest ih => simp [decodeBytes, ih]

/-- C5: decoding the encoding of any `SyncMessage` — any of the four
variants, including a `fileContent` with empty content and variants with
an empty path — yields the original message with all fields equal. -/
theorem syncMessage_roundtrip (m : SyncMessage) :
    fromJson (toJson m) = some m := by
  cases m with
  | fileChange p c => rfl
  | fileContent p content => simp [toJson, fromJson, decodeBytes_map]
  | syncRequest => rfl
  | syncResponse => rfl

/-- Helper: the frame reader extracts no frame from its own leftover
buffer (the leftover is always an incomplete frame). -/
theorem extractFrames_leftover (buf : List Nat) :
    extractFrames (extractFrames buf).2 = ([], (extractFrames buf).2) := by
  induction buf using extractFrames.induct with
  | case1 a b c d rest h =>
    simp [extractFrames, if_pos h]
  | case2 a b c d rest h ih =>
    simp only [extractFrames, if_neg h]
    exact ih
  | case3 => simp [extractFrames]
  | case4 a => simp [extractFrames]
  | case5 a b => simp [extractFrames]
  | case6 a b c => simp [extractFrames]

/-- Helper: appending further bytes to a buffer extracts the buffer's
complete frames first, then continues from the leftover plus the new
bytes. -/
theorem extractFrames_append (buf dd : List Nat) :
    extractFrames (buf ++ dd) =
      ((extractFrames buf).1 ++
         (extractFrames ((extractFrames buf).2 ++ dd)).1,
       (extractFrames ((extractFrames buf).2 ++ dd)).2) := by
  induction buf using extractFrames.induct with
  | case1 a b c d rest h =>
    simp [extractFrames, if_pos h]
  | case2 a b c d rest h ih =>
    have hlen : ¬(rest ++ dd).length < fromBe4 a b c d := by
      simp only [List.length_append]
      omega
    have htake : (rest ++ dd).take (fromBe4 a b c d) =
        rest.take (fromBe4 a b c d) :=
      List.take_append_of_le_length (Nat.le_of_not_lt h)
    have hdrop : (rest ++ dd).drop (fromBe4 a b c d) =
        rest.drop (fromBe4 a b c d) ++ dd :=
      List.drop_append_of_le_length (Nat.le_of_not_lt h)
    simp only [List.cons_append, extractFrames, if_neg h, if_neg hlen, htake,
      hdrop, ih]
  | case3 => simp [extractFrames]
  | case4 a => simp [extractFrames]
  | case5 a b => simp [extractFrames]
  | case6 a b c => simp [extractFrames]

/-- Helper: feeding a stream chunk by chunk extracts the same frames as
receiving all of it at once, for any starting buffer holding no complete
frame. -/
theorem feedAll_flatten (cs : List (List Nat)) (st : List Nat)
    (hst : extractFrames st = ([], st)) :
    feedAll st cs = extractFrames (st ++ cs.flatten) := by
  induction cs generalizing st with
  | nil => simp [feedAll, hst]
  | cons c cs ih =>
    have h2 := extractFrames_leftover (st ++ c)
    have ihx := ih (extractFrames (st ++ c)).2 h2
    have happ := extractFrames_append (st ++ c) cs.flatten
    simp only [feedAll, List.flatten_cons, ← List.append_assoc, happ, ihx]

/-- Helper: the 4-byte big-endian length encoding is inverted by
`fromBe4` for any length below 2^32. -/
theorem fromBe4_toBe4 (n : Nat) (h : n < 2 ^ 32) :
    fromBe4 (n / 2 ^ 24 % 256) (n / 2 ^ 16 % 256) (n / 2 ^ 8 % 256)
      (n % 256) = n := by
  simp only [fromBe4]
  omega

/-- Helper: a buffer holding exactly one complete frame yields its body
and an empty leftover. -/
theorem extractFrames_one_frame (b : List Nat) (hb : b.length < 2 ^ 32) :
    extractFrames (mkFrame b) = ([b], []) := by
  have hnb := fromBe4_toBe4 b.length hb
  simp only [mkFrame, toBe4, List.cons_append, List.nil_append]
  rw [extractFrames, hnb, if_neg (lt_irrefl b.length)]
  simp [extractFrames]

/-- Helper: a buffer holding exactly two concatenated frames yields both
bodies in order and an empty leftover. -/
theorem extractFrames_two_frames (a b : List Nat)
    (ha : a.length < 2 ^ 32) (hb : b.length < 2 ^ 32) :
    extractFrames (mkFrame a ++ mkFrame b) = ([a, b], []) := by
  have hna := fromBe4_toBe4 a.length ha
  have hb1 := extractFrames_one_frame b hb
  generalize hfb : mkFrame b = fb at hb1 ⊢
  simp only [mkFrame, toBe4, List.cons_append, List.nil_append,
    List.append_assoc]
  rw [extractFrames, hna,
    if_neg (by simp only [List.length_append]; omega),
    List.take_append_of_le_length (Nat.le_refl _),
    List.drop_append_of_le_length (Nat.le_refl _)]
  simp [List.take_length, List.drop_length, hb1]

/-- C6: for every two message bodies framed with a 4-byte length prefix,
feeding the concatenation of the two frames to the frame reader in any
chunking whatsoever yields exactly the two original bodies, in order. -/
theorem framing_chunk_invariant (a b : List Nat) (cs : List (List Nat))
    (ha : a.length < 2 ^ 32) (hb : b.length < 2 ^ 32)
    (hcs : cs.flatten = mkFrame a ++ mkFrame b) :
    (feedAll [] cs).1 = [a, b] := by
  rw [feedAll_flatten cs [] (by simp [extractFrames])]
  simp [hcs, extractFrames_two_frames a b ha hb]

/-- Witness for `framing_chunk_invariant`: the two frames for bodies
consisting of the byte 1 and the bytes 2, 3, delivered in four chunks
that straddle both frame boundaries. -/
theorem framing_chunk_invariant_witness :
    (feedAll [] [[0, 0], [0, 1, 1, 0, 0], [0, 2, 2], [3]]).1 = [[1], [2, 3]] :=
  framing_chunk_invariant [1] [2, 3] [[0, 0], [0, 1, 1, 0, 0], [0, 2, 2], [3]]
    (by decide) (by decide) (by decide)

/-- Helper: the connection loop consumes decodable and undecodable
well-framed messages alike, logging one info line per decoded message
and nothing for an undecodable one, then continues with the tail. -/
theorem handleConnection_ok_append (js : List Json)
    (tail : List (Except Unit Json)) :
    handleConnection (js.map Except.ok ++ tail) =
      js.filterMap (fun j => (fromJson j).map LogEntry.infoReceived) ++
        handleConnection tail := by
  induction js with
  | nil => rfl
  | cons j js ih =>
    cases h : fromJson j <;>
      simp [handleConnection, h, ih, List.filterMap_cons]

/-- C7 counterexample: a frame whose body does not decode to a
`SyncMessage` is indeed dropped and the loop continues to the next
frame, but no warning is logged — the loop of `handle_connection`
produces no log entry at all for it (the claim requires a logged
warning). -/
theorem handle_connection_malformed_dropped_silently :
    handleConnection
        [Except.ok (Json.str "Bogus"),
         Except.ok (toJson SyncMessage.syncRequest)] =
      [LogEntry.infoReceived SyncMessage.syncRequest] ∧
    handleConnection [Except.ok (Json.str "Bogus")] = [] := by
  constructor
  · rfl
  · rfl

/-- C7 amended: a frame whose body does not decode is dropped silently —
no warning is logged — and the message loop continues with the next
frame; the loop terminates early only on a framing-layer error, which is
logged as an error and ends only that connection's loop, every
connection being handled independently of the others. -/
theorem handle_connection_framing_error_termination (js : List Json)
    (post : List (Except Unit Json)) (e : Unit)
    (cs1 cs2 : List (List (Except Unit Json))) :
    handleConnection (js.map Except.ok) =
      js.filterMap (fun j => (fromJson j).map LogEntry.infoReceived) ∧
    handleConnection (js.map Except.ok ++ Except.error e :: post) =
      js.filterMap (fun j => (fromJson j).map LogEntry.infoReceived) ++
        [LogEntry.errorReceiving] ∧
    serverRun (cs1 ++ cs2) = serverRun cs1 ++ serverRun cs2 := by
  refine ⟨?_, ?_, ?_⟩
  · have h := handleConnection_ok_append js []
    simpa [handleConnection] using h
  · rw [handleConnection_ok_append]
    rfl
  · simp [serverRun]

/-- Helper: the propagation loop attempts a send to every configured
device in order; the delivered messages are exactly one `FileChange` per
reachable device and the log holds exactly one failure entry per
unreachable device, in configuration order. -/
theorem propagateChange_spec (reachable : String → Bool)
    (devices : List Device) (path change_type : String) :
    (propagateChange reachable devices path change_type).1 =
      (devices.filter fun d => reachable d.address).map
        (fun d => (d.address, SyncMessage.fileChange path change_type)) ∧
    (propagateChange reachable devices path change_type).2 =
      (devices.filter fun d => !reachable d.address).map
        (fun d => LogEntry.errorSendFailed d.name) := by
  induction devices with
  | nil => exact ⟨rfl, rfl⟩
  | cons d ds ih =>
    by_cases h : reachable d.address <;>
      simp [propagateChange, send_file_change, h, ih.1, ih.2]

/-- C8: propagation attempts a `FileChange` send to every configured
device in order, delivering to exactly the reachable ones and logging
one failure per unreachable one; in particular with two configured
devices of which one is unreachable, the reachable device receives
exactly one `FileChange` message for the event. -/
theorem propagate_change_sends_to_all_devices (reachable : String → Bool)
    (devices : List Device) (path change_type : String) :
    ((propagateChange reachable devices path change_type).1 =
      (devices.filter fun d => reachable d.address).map
        (fun d => (d.address, SyncMessage.fileChange path change_type)) ∧
    (propagateChange reachable devices path change_type).2 =
      (devices.filter fun d => !reachable d.address).map
        (fun d => LogEntry.errorSendFailed d.name)) ∧
    (propagateChange (fun a => a == "good")
        [⟨"A", "bad"⟩, ⟨"B", "good"⟩] "w.dat" "modify").1 =
      [("good", SyncMessage.fileChange "w.dat" "modify")] :=
  ⟨propagateChange_spec reachable devices path change_type, rfl⟩
